import Mathlib

/-!
# Verification of the galay-ssl TLS transport bridge

Shallow embedding of the core of `galay-ssl` (an asynchronous TLS socket
library gluing an OpenSSL memory-BIO engine to a coroutine reactor) and
proofs about its awaitable state machines.

Sources embedded:
* `src/galay-ssl/common/Defn.hpp` — `SslIOResult`, `SslHandshakeState`,
  `sslErrorToResult`.
* `src/galay-ssl/ssl/SslEngine.cc` — `SslEngine::read`, `SslEngine::doHandshake`
  (the OpenSSL calls `SSL_read` / `SSL_do_handshake` / `SSL_get_error` are
  external; their observable outcome for one call is passed in as data).
* `src/galay-ssl/async/Awaitable.cc` — `ensureBufferSize`, `drainChunkSize`,
  and the four awaitable state machines (`SslRecvAwaitable`, `SslSendAwaitable`,
  `SslHandshakeAwaitable`, `SslShutdownAwaitable`).  The non-`USE_IOURING`
  (epoll/kqueue) build is embedded.

Modelling conventions:
* `size_t` is modelled as `Nat`; where the C++ code guards against overflow
  (`ensureBufferSize`) the guard is embedded with `SIZEMAX = 2^64 - 1`.
* The TLS engine (`SslEngine` backed by OpenSSL) is abstracted as an
  `EngineModel σ`: a state type `σ` together with the transition functions the
  awaitables call (`read`, `write`, `doHandshake`, `shutdown`,
  `pendingEncryptedOutput`, `extractEncryptedOutput`, `feedEncryptedInput`).
  Theorems quantify over all such models, so they hold for every behaviour of
  the underlying TLS library.
* Raw kernel I/O (`io::handleRecv` / `io::handleSend` of the reactor) is
  scripted: each wake-up handler consumes a list of raw-I/O outcomes.
* `IOController::addTask` appends to a FIFO list of `IOEventType`s.
* Plaintext is a `List Nat`; an engine `read` yields the produced chunk, whose
  length is the C++ out-parameter `bytesRead`.
* Loops without a structural measure take explicit fuel and return `Option`;
  `none` means the scripted input/fuel ran out, and theorems quantify over all
  terminating runs.
-/

/-- `SslIOResult` from `common/Defn.hpp`. -/
inductive SslIOResult where
  | Success
  | WantRead
  | WantWrite
  | Error
  | ZeroReturn
  | Syscall
deriving DecidableEq, Repr

/-- `SslHandshakeState` from `common/Defn.hpp`. -/
inductive SslHandshakeState where
  | NotStarted
  | InProgress
  | Completed
  | Failed
deriving DecidableEq, Repr

/-- Direction tag of a pending task on the `IOController` (galay-kernel
`IOEventType`; only the two directions used by the awaitables). -/
inductive IOEventType where
  | RECV
  | SEND
deriving DecidableEq, Repr

/-- OpenSSL error-code constants as used by `sslErrorToResult`
(`SSL_ERROR_NONE`, `SSL_ERROR_WANT_READ`, `SSL_ERROR_WANT_WRITE`,
`SSL_ERROR_SYSCALL`, `SSL_ERROR_ZERO_RETURN`). -/
def sslErrorNone : Nat := 0

def sslErrorWantRead : Nat := 2

def sslErrorWantWrite : Nat := 3

def sslErrorSyscall : Nat := 5

def sslErrorZeroReturn : Nat := 6

/-- `sslErrorToResult` from `common/Defn.hpp`: translate an `SSL_get_error`
code into an `SslIOResult`. -/
def sslErrorToResult (e : Nat) : SslIOResult :=
  if e = sslErrorNone then .Success
  else if e = sslErrorWantRead then .WantRead
  else if e = sslErrorWantWrite then .WantWrite
  else if e = sslErrorZeroReturn then .ZeroReturn
  else if e = sslErrorSyscall then .Syscall
  else .Error

/-- `SSL_ERROR_NONE` contract of OpenSSL: `SSL_get_error(ssl, ret)` returns
`SSL_ERROR_NONE` only when `ret > 0` (for `SSL_do_handshake`, only when
`ret = 1`).  This is the documented behaviour of the external library. -/
def opensslErrNoneImpliesProgress (ret : Int) (err : Nat) : Prop :=
  err = sslErrorNone → 0 < ret

-- ==================== SslEngine::read / SslEngine::doHandshake ====================

/-- `SslEngine::read` from `ssl/SslEngine.cc`, lines 167–195.  The outcome of
the one embedded OpenSSL call is given by `ret` (`SSL_read` return value),
`err` (`SSL_get_error(m_ssl, ret)`) and `errno`.  `valid` is `m_ssl != nullptr`.
Returns the `SslIOResult` together with the `bytesRead` out-parameter
(which the C++ code sets to `0` before the call and only overwrites on
`ret > 0`). -/
def engineRead (valid : Bool) (ret : Int) (err : Nat) (errnoV : Int) :
    SslIOResult × Nat :=
  if !valid then (.Error, 0)
  else if 0 < ret then (.Success, ret.toNat)
  else if ret = 0 ∧ err = sslErrorSyscall ∧ errnoV = 0 then (.ZeroReturn, 0)
  else if ret = 0 ∧ err = sslErrorZeroReturn then (.ZeroReturn, 0)
  else (sslErrorToResult err, 0)

/-- `SslEngine::doHandshake` from `ssl/SslEngine.cc`, lines 141–165.  `st` is
the handshake phase (`m_handshakeState`) before the call; `ret` is the
`SSL_do_handshake` return value and `err` the `SSL_get_error` code computed
when `ret != 1`.  Returns the `SslIOResult` and the phase after the call.
Note the C++ code first unconditionally assigns `m_handshakeState = InProgress`
whenever `m_ssl` is valid. -/
def engineDoHandshake (valid : Bool) (ret : Int) (err : Nat)
    (st : SslHandshakeState) : SslIOResult × SslHandshakeState :=
  if !valid then (.Error, st)
  else if ret = 1 then (.Success, .Completed)
  else
    let r := sslErrorToResult err
    if r = .Error ∨ r = .Syscall ∨ r = .ZeroReturn then (r, .Failed)
    else (r, .InProgress)

-- ==================== Ciphertext scratch-buffer policy ====================

/-- `kCipherBufSize` from `async/Awaitable.cc` (16 KiB). -/
def kCipherBufSize : Nat := 16384

/-- `kMaxDrainBytes` from `async/Awaitable.cc` (64 KiB). -/
def kMaxDrainBytes : Nat := 64 * 1024

/-- `std::numeric_limits<size_t>::max()` for a 64-bit `size_t`. -/
def SIZEMAX : Nat := 2 ^ 64 - 1

/-- The `while (newSize < required)` growth loop inside `ensureBufferSize`
(`async/Awaitable.cc`, lines 26–32).  The extra `n = 0` exit mirrors nothing
in the source (the C++ loop would not terminate at `newSize = 0`); it is
unreachable from `ensureBufferSize`, whose starting value is ≥ 16384. -/
def growLoop (required n : Nat) : Nat :=
  if h : n < required then
    if SIZEMAX / 2 < n ∨ n = 0 then required
    else growLoop required (n * 2)
  else n
termination_by required - n
decreasing_by
  rename_i h2
  push_neg at h2
  omega

/-- `ensureBufferSize` from `async/Awaitable.cc`, lines 15–40: grow the scratch
buffer (modelled by its size) to at least `required`, doubling from at least
`kCipherBufSize`.  Returns (success flag, new buffer size). -/
def ensureBufferSize (size required : Nat) : Bool × Nat :=
  if required = 0 ∨ required ≤ size then (true, size)
  else
    let n0 := if size < kCipherBufSize then kCipherBufSize else size
    let n := growLoop required n0
    if n < required then (false, size) else (true, n)

/-- `drainChunkSize` from `async/Awaitable.cc`, lines 42–48. -/
def drainChunkSize (pending : Nat) : Nat :=
  if pending = 0 then kCipherBufSize
  else max kCipherBufSize (min pending kMaxDrainBytes)

/-- Scratch-buffer size after the `SslRecvAwaitable` constructor
(`async/Awaitable.cc`, lines 64–66): resize to `kCipherBufSize` when smaller. -/
def recvCtorBufSize (size : Nat) : Nat :=
  if size < kCipherBufSize then kCipherBufSize else size

-- ==================== Abstract engine model ====================

/-- The engine operations invoked by the awaitables, over an abstract engine
state `σ`.  `read` returns the produced plaintext chunk (the C++
out-parameter `bytesRead` is its length); `write` returns `bytesWritten`;
`extractOut` returns the `int` result of `BIO_read` on the outbound BIO. -/
structure EngineModel (σ : Type) where
  read : σ → Nat → SslIOResult × List Nat × σ
  write : σ → Nat → SslIOResult × Nat × σ
  pendingOut : σ → Nat
  extractOut : σ → Nat → Int × σ
  feedInput : σ → List Nat → σ
  doHandshakeOp : σ → SslIOResult × σ
  shutdownOp : σ → SslIOResult × σ

-- ==================== Raw kernel I/O outcomes ====================

/-- Outcome of one `io::handleRecv` call on the raw socket, as classified by
the awaitable code: `notReady` (`kNotReady`), `disconnect`
(`kDisconnectError`), `fatal` (any other error), or a chunk of ciphertext
bytes. -/
inductive RawRecvRes where
  | notReady
  | disconnect
  | fatal
  | bytes (bs : List Nat)
deriving DecidableEq, Repr

/-- Outcome of one `io::handleSend` call on the raw socket: `notReady`
(`kNotReady`), `fatal` (any other error), or `sent n` bytes accepted by the
kernel. -/
inductive RawSendRes where
  | notReady
  | fatal
  | sent (n : Nat)
deriving DecidableEq, Repr

-- ==================== SslRecvAwaitable ====================

/-- `SslRecvAwaitable::ReadAction` from `async/Awaitable.h`. -/
inductive ReadAction where
  | NeedRecv
  | NeedSend
  | Completed
deriving DecidableEq, Repr

/-- `SslRecvAwaitable::SendChunkState` from `async/Awaitable.h`. -/
inductive SendChunkState where
  | Ready
  | Drained
  | Failed
deriving DecidableEq, Repr

/-- State of an `SslRecvAwaitable`: engine state, caller-supplied plaintext
capacity `m_plainLength`, ciphertext scratch size (`m_cipherBuffer->size()`),
the cross-arming send chunk length (`m_sendCtx.m_length`), the result slot
(`m_sslResult` / `m_sslResultSet`, errors collapsed to `Except Unit` since
every error site uses `kReadFailed`), and the FIFO of tasks armed on the
`IOController` via `addTask`. -/
structure RecvSt (σ : Type) where
  engine : σ
  plainLength : Nat
  bufSize : Nat
  sendLen : Nat
  result : Except Unit (List Nat)
  resultSet : Bool
  tasks : List IOEventType
deriving Repr

/-- The `while (totalRead < m_plainLength)` loop of
`SslRecvAwaitable::drainPlaintext` (`async/Awaitable.cc`, lines 135–188),
with `acc` the plaintext accumulated so far in the caller's buffer
(`totalRead = acc.length`).  Returns the `ReadAction`, the value written to
the result slot (`none` when the slot is untouched), and the engine state. -/
def drainLoop {σ : Type} (M : EngineModel σ) (pl : Nat) (e : σ)
    (acc : List Nat) : ReadAction × Option (Except Unit (List Nat)) × σ :=
  if _h : acc.length < pl then
    let (r, chunk, e') := M.read e (pl - acc.length)
    if _hc : r = .Success ∧ 0 < chunk.length then
      drainLoop M pl e' (acc ++ chunk)
    else if r = .WantRead then
      -- break: fall through to the code after the loop
      if 0 < acc.length then (.Completed, some (.ok acc), e')
      else (.NeedRecv, none, e')
    else if r = .WantWrite then
      if 0 < acc.length then (.Completed, some (.ok acc), e')
      else (.NeedSend, none, e')
    else if r = .ZeroReturn then
      if 0 < acc.length then (.Completed, some (.ok acc), e')
      else (.Completed, some (.ok []), e')
    else
      if 0 < acc.length then (.Completed, some (.ok acc), e')
      else (.Completed, some (.error ()), e')
  else
    if 0 < acc.length then (.Completed, some (.ok acc), e)
    else (.NeedRecv, none, e)
termination_by pl - acc.length
decreasing_by
  simp only [List.length_append]
  omega

/-- `SslRecvAwaitable::drainPlaintext` acting on the awaitable state:
runs `drainLoop` from an empty accumulator and commits the result slot. -/
def drainPlaintextS {σ : Type} (M : EngineModel σ) (s : RecvSt σ) :
    ReadAction × RecvSt σ :=
  let (a, res, e') := drainLoop M s.plainLength s.engine []
  match res with
  | some v => (a, { s with engine := e', result := v, resultSet := true })
  | none => (a, { s with engine := e' })

/-- `SslRecvAwaitable::prepareSendChunk` (`async/Awaitable.cc`,
lines 190–221). -/
def prepareSendChunk {σ : Type} (M : EngineModel σ) (s : RecvSt σ) :
    SendChunkState × RecvSt σ :=
  if 0 < s.sendLen then (.Ready, s)
  else
    let pending := M.pendingOut s.engine
    if pending = 0 then (.Drained, s)
    else
      let desired := drainChunkSize pending
      let (ok, sz) := ensureBufferSize s.bufSize desired
      if !ok then (.Failed, { s with result := .error (), resultSet := true })
      else
        let toRead := min pending sz
        let (n, e') := M.extractOut s.engine toRead
        if n ≤ 0 then
          (.Failed, { s with engine := e', bufSize := sz,
                             result := .error (), resultSet := true })
        else
          (.Ready, { s with engine := e', bufSize := sz, sendLen := n.toNat })

/-- `SslRecvAwaitable::scheduleSendThenRecv` (`async/Awaitable.cc`,
lines 223–238): on a ready chunk, arm a SEND task then a RECV task. -/
def scheduleSendThenRecv {σ : Type} (M : EngineModel σ) (s : RecvSt σ) :
    Bool × RecvSt σ :=
  let (st, s1) := prepareSendChunk M s
  match st with
  | .Failed => (true, s1)
  | .Drained => (true, { s1 with result := .error (), resultSet := true })
  | .Ready =>
      (true, { s1 with tasks := s1.tasks ++ [IOEventType.SEND, IOEventType.RECV] })

/-- The `while (true)` raw-recv loop of `SslRecvAwaitable::RecvCtx::handleComplete`
(`async/Awaitable.cc`, lines 295–320), consuming one scripted raw outcome per
`io::handleRecv` call.  `none` means the script ran out. -/
def recvLoop {σ : Type} (M : EngineModel σ) :
    List RawRecvRes → RecvSt σ → Option (Bool × RecvSt σ)
  | [], _ => none
  | r :: rest, s =>
    match r with
    | .notReady => some (false, s)
    | .disconnect => some (true, { s with result := .ok [], resultSet := true })
    | .fatal => some (true, { s with result := .error (), resultSet := true })
    | .bytes bs =>
        let s1 := { s with engine := M.feedInput s.engine bs }
        let (a, s2) := drainPlaintextS M s1
        match a with
        | .Completed => some (true, s2)
        | .NeedSend => some (scheduleSendThenRecv M s2)
        | .NeedRecv => recvLoop M rest s2

/-- `SslRecvAwaitable::RecvCtx::handleComplete` (`async/Awaitable.cc`,
lines 284–321, epoll/kqueue build): first retry `drainPlaintext`, then drain
the kernel socket. -/
def recvHandleComplete {σ : Type} (M : EngineModel σ) (raws : List RawRecvRes)
    (s : RecvSt σ) : Option (Bool × RecvSt σ) :=
  let (pre, s1) := drainPlaintextS M s
  match pre with
  | .Completed => some (true, s1)
  | .NeedSend => some (scheduleSendThenRecv M s1)
  | .NeedRecv => recvLoop M raws s1

-- ==================== SslSendAwaitable ====================

/-- State of an `SslSendAwaitable`: engine state, caller-supplied plaintext
length `m_plainLength`, progress cursor `m_plainOffset`, ciphertext scratch
size, `m_cipherLength`, the base-class send context length
(`SendIOContext::m_length`), and the result slot (`m_sslResult` /
`m_sslResultSet`; every error site uses `kWriteFailed`, collapsed to
`Except Unit`). -/
structure SendSt (σ : Type) where
  engine : σ
  plainLength : Nat
  plainOffset : Nat
  bufSize : Nat
  cipherLength : Nat
  ctxLen : Nat
  result : Except Unit Nat
  resultSet : Bool
deriving Repr

/-- `SslSendAwaitable::fillNextSendChunk` (`async/Awaitable.cc`,
lines 440–499).  The `while (true)` loop takes fuel; `none` means the fuel ran
out before the loop returned.  The returned `Bool` is the C++ return value
(`true` = a chunk is ready to send). -/
def fillNextSendChunk {σ : Type} (M : EngineModel σ) :
    Nat → SendSt σ → Option (Bool × SendSt σ)
  | 0, _ => none
  | _fuel + 1, s =>
    if 0 < s.ctxLen then some (true, s)
    else
      let pending := M.pendingOut s.engine
      if 0 < pending then
        let desired := drainChunkSize pending
        let (ok, sz) := ensureBufferSize s.bufSize desired
        if !ok then
          some (false, { s with result := .error (), resultSet := true })
        else
          let toRead := min pending sz
          let (n, e') := M.extractOut s.engine toRead
          if n ≤ 0 then
            some (false, { s with engine := e', bufSize := sz,
                                  result := .error (), resultSet := true })
          else
            some (true, { s with engine := e', bufSize := sz,
                                 cipherLength := n.toNat, ctxLen := n.toNat })
      else if s.plainLength ≤ s.plainOffset then
        some (false, { s with cipherLength := 0, ctxLen := 0,
                              result := .ok s.plainLength, resultSet := true })
      else
        let (r, written, e') := M.write s.engine (s.plainLength - s.plainOffset)
        if r = .Success ∧ 0 < written then
          fillNextSendChunk M _fuel
            { s with engine := e', plainOffset := s.plainOffset + written }
        else if (r = .WantRead ∨ r = .WantWrite) ∧ 0 < M.pendingOut e' then
          fillNextSendChunk M _fuel { s with engine := e' }
        else
          some (false, { s with engine := e', ctxLen := 0,
                                result := .error (), resultSet := true })

/-- The `SslSendAwaitable` constructor (`async/Awaitable.cc`, lines 418–438):
ensure a 16 KiB scratch, then run `fillNextSendChunk` once; when it reports no
chunk and no result is set, resolve `Ok(m_plainLength)` immediately. -/
def mkSend {σ : Type} (M : EngineModel σ) (L buf0 : Nat) (e : σ) (fuel : Nat) :
    Option (SendSt σ) :=
  let s0 : SendSt σ :=
    { engine := e, plainLength := L, plainOffset := 0, bufSize := buf0,
      cipherLength := 0, ctxLen := 0, result := .ok 0, resultSet := false }
  let (ok, sz) := ensureBufferSize buf0 kCipherBufSize
  if !ok then
    some { s0 with result := .error (), resultSet := true }
  else
    match fillNextSendChunk M fuel { s0 with bufSize := sz } with
    | none => none
    | some (filled, s1) =>
        if !filled ∧ !s1.resultSet then
          some { s1 with result := .ok L, resultSet := true }
        else some s1

/-- The inner `while (SendIOContext::m_length > 0)` raw-send loop of
`SslSendAwaitable::handleComplete` (`async/Awaitable.cc`, lines 541–558).
Returns `some (some b, rest, s)` when the C++ loop returned `b` early,
`some (none, rest, s)` when the chunk drained, and `none` when the raw script
ran out mid-chunk. -/
def sendRawLoop {σ : Type} (raws : List RawSendRes) (s : SendSt σ) :
    Option (Option Bool × List RawSendRes × SendSt σ) :=
  if s.ctxLen = 0 then some (none, raws, s)
  else
    match raws with
    | [] => none
    | r :: rest =>
      match r with
      | .notReady => some (some false, rest, s)
      | .fatal =>
          some (some true, rest, { s with result := .error (), resultSet := true })
      | .sent n =>
          if n = 0 then some (some false, rest, s)
          else sendRawLoop rest { s with ctxLen := s.ctxLen - n }

/-- `SslSendAwaitable::handleComplete` (`async/Awaitable.cc`, lines 537–574,
epoll/kqueue build): send the current chunk to the kernel until `NotReady` or
drained, then refill; the outer `while (true)` takes fuel. -/
def handleCompleteSend {σ : Type} (M : EngineModel σ) :
    Nat → List RawSendRes → SendSt σ → Option (Bool × SendSt σ)
  | 0, _, _ => none
  | fuel + 1, raws, s =>
    match sendRawLoop raws s with
    | none => none
    | some (some b, _, s1) => some (b, s1)
    | some (none, rest, s1) =>
        if s1.resultSet then some (true, s1)
        else
          match fillNextSendChunk M fuel s1 with
          | none => none
          | some (filled, s2) =>
              if filled then handleCompleteSend M fuel rest s2
              else if s2.resultSet then some (true, s2)
              else some (true, { s2 with result := .ok s2.plainLength,
                                         resultSet := true })

/-- `SslSendAwaitable::await_suspend` (`async/Awaitable.cc`, lines 576–583):
when the result slot is set, do not suspend; otherwise defer to the base
class (whose verdict is `base`). -/
def awaitSuspendSend {σ : Type} (s : SendSt σ) (base : Bool) : Bool :=
  if s.resultSet then false else base

/-- `SslSendAwaitable::await_resume` (`async/Awaitable.cc`, lines 585–605).
`baseOk` is whether the base-class `SendAwaitable::await_resume` result held a
value.  Returns the value the caller observes. -/
def awaitResumeSend {σ : Type} (s : SendSt σ) (baseOk : Bool) : Except Unit Nat :=
  if s.resultSet then s.result
  else if !baseOk then .error ()
  else .ok s.plainLength

/-- Reachability of send-awaitable states: the constructor produces the
initial state, and each reactor wake-up runs `handleCompleteSend` with some
fuel and raw-I/O script. -/
inductive SendReach {σ : Type} (M : EngineModel σ) : SendSt σ → SendSt σ → Prop
  | refl (s : SendSt σ) : SendReach M s s
  | handle (s s1 s2 : SendSt σ) (fuel : Nat) (raws : List RawSendRes) (b : Bool)
      (h1 : SendReach M s s1)
      (h2 : handleCompleteSend M fuel raws s1 = some (b, s2)) : SendReach M s s2

-- ==================== SslHandshakeAwaitable ====================

/-- Result values stored in `SslHandshakeAwaitable::m_result`
(`std::expected<void, SslError>`): `Ok`, or the two error codes the handshake
paths use. -/
inductive HsOutcome where
  | ok
  | handshakeFailed
  | peerClosed
deriving DecidableEq, Repr

/-- State of an `SslHandshakeAwaitable`: engine state, `m_ioBuf` size, the
send context (`m_sendCtx.m_length`, `m_sendCtx.m_followedByRecv`), the result
slot (`m_result` / `m_resultSet`), `m_handshakeSucceeded`, and the armed-task
FIFO. -/
structure HsSt (σ : Type) where
  engine : σ
  bufSize : Nat
  sendLen : Nat
  followedByRecv : Bool
  result : HsOutcome
  resultSet : Bool
  handshakeSucceeded : Bool
  tasks : List IOEventType
deriving Repr

/-- `SslHandshakeAwaitable::tryHandshake` (`async/Awaitable.cc`,
lines 624–706). -/
def tryHandshake {σ : Type} (M : EngineModel σ) (s : HsSt σ) : HsSt σ :=
  let (ret, e1) := M.doHandshakeOp s.engine
  let s := { s with engine := e1 }
  match ret with
  | .Success =>
      let pending := M.pendingOut e1
      if 0 < pending then
        let (ok, sz) := ensureBufferSize s.bufSize pending
        if !ok then { s with result := .handshakeFailed, resultSet := true }
        else
          let (n, e2) := M.extractOut e1 sz
          if 0 < n then
            { s with engine := e2, bufSize := sz, sendLen := n.toNat,
                     followedByRecv := false, result := .ok,
                     handshakeSucceeded := true,
                     tasks := s.tasks ++ [IOEventType.SEND] }
          else { s with engine := e2, bufSize := sz,
                        result := .ok, resultSet := true }
      else { s with result := .ok, resultSet := true }
  | .WantWrite =>
      let pending := M.pendingOut e1
      let (ok, sz) := ensureBufferSize s.bufSize pending
      if !ok then { s with result := .handshakeFailed, resultSet := true }
      else
        let (n, e2) := M.extractOut e1 sz
        if 0 < n then
          { s with engine := e2, bufSize := sz, sendLen := n.toNat,
                   followedByRecv := false,
                   tasks := s.tasks ++ [IOEventType.SEND] }
        else { s with engine := e2, bufSize := sz,
                      result := .handshakeFailed, resultSet := true }
  | .WantRead =>
      let pending := M.pendingOut e1
      if 0 < pending then
        let (ok, sz) := ensureBufferSize s.bufSize pending
        if !ok then { s with result := .handshakeFailed, resultSet := true }
        else
          let (n, e2) := M.extractOut e1 sz
          let s2 :=
            if 0 < n then
              { s with engine := e2, bufSize := sz, sendLen := n.toNat,
                       followedByRecv := true,
                       tasks := s.tasks ++ [IOEventType.SEND] }
            else { s with engine := e2, bufSize := sz }
          { s2 with tasks := s2.tasks ++ [IOEventType.RECV] }
      else { s with tasks := s.tasks ++ [IOEventType.RECV] }
  | .ZeroReturn => { s with result := .peerClosed, resultSet := true }
  | _ => { s with result := .handshakeFailed, resultSet := true }

/-- The `SslHandshakeAwaitable` constructor (`async/Awaitable.cc`,
lines 609–617): a fresh 16 KiB `m_ioBuf`, then `tryHandshake`. -/
def hsInit {σ : Type} (M : EngineModel σ) (e : σ) : HsSt σ :=
  tryHandshake M
    { engine := e, bufSize := kCipherBufSize, sendLen := 0,
      followedByRecv := false, result := .ok, resultSet := false,
      handshakeSucceeded := false, tasks := [] }

/-- The `while (m_length > 0)` raw-send loop of
`SslHandshakeAwaitable::HandshakeSendCtx::handleComplete`
(`async/Awaitable.cc`, lines 792–809).  `some (some b, s)`: early return `b`;
`some (none, s)`: chunk drained; `none`: raw script exhausted. -/
def hsSendLoop {σ : Type} (raws : List RawSendRes) (s : HsSt σ) :
    Option (Option Bool × HsSt σ) :=
  if s.sendLen = 0 then some (none, s)
  else
    match raws with
    | [] => none
    | r :: rest =>
      match r with
      | .notReady => some (some false, s)
      | .fatal =>
          some (some true,
                { s with result := .handshakeFailed, resultSet := true })
      | .sent n =>
          if n = 0 then some (some false, s)
          else hsSendLoop rest { s with sendLen := s.sendLen - n }

/-- `SslHandshakeAwaitable::HandshakeSendCtx::handleComplete`
(`async/Awaitable.cc`, lines 790–822, epoll/kqueue build).  The middle
component of the output records whether the branch that re-enters
`tryHandshake` was taken. -/
def hsSendHandle {σ : Type} (M : EngineModel σ) (raws : List RawSendRes)
    (s : HsSt σ) : Option (Bool × Bool × HsSt σ) :=
  match hsSendLoop raws s with
  | none => none
  | some (some b, s1) => some (b, false, s1)
  | some (none, s1) =>
      if s1.handshakeSucceeded then
        some (true, false, { s1 with resultSet := true })
      else if !s1.followedByRecv ∧ !s1.resultSet then
        some (true, true, tryHandshake M s1)
      else some (true, false, s1)

-- ==================== SslShutdownAwaitable ====================

/-- State of an `SslShutdownAwaitable`.  `m_result` is
`std::expected<void, SslError>`; it is modelled as `Except Unit Unit` so that
"every terminal path yields Ok" is a statement about the code, not a
tautology. -/
structure ShutSt (σ : Type) where
  engine : σ
  bufSize : Nat
  sendLen : Nat
  followedByRecv : Bool
  result : Except Unit Unit
  resultSet : Bool
  tasks : List IOEventType
deriving Repr

/-- `SslShutdownAwaitable::tryShutdown` (`async/Awaitable.cc`,
lines 841–903). -/
def tryShutdown {σ : Type} (M : EngineModel σ) (s : ShutSt σ) : ShutSt σ :=
  let (ret, e1) := M.shutdownOp s.engine
  let s := { s with engine := e1 }
  match ret with
  | .Success => { s with result := .ok (), resultSet := true }
  | .WantWrite =>
      let pending := M.pendingOut e1
      let (ok, sz) := ensureBufferSize s.bufSize pending
      if !ok then { s with result := .ok (), resultSet := true }
      else
        let (n, e2) := M.extractOut e1 sz
        if 0 < n then
          { s with engine := e2, bufSize := sz, sendLen := n.toNat,
                   followedByRecv := false,
                   tasks := s.tasks ++ [IOEventType.SEND] }
        else { s with engine := e2, bufSize := sz,
                      result := .ok (), resultSet := true }
  | .WantRead =>
      let pending := M.pendingOut e1
      if 0 < pending then
        let (ok, sz) := ensureBufferSize s.bufSize pending
        if !ok then { s with result := .ok (), resultSet := true }
        else
          let (n, e2) := M.extractOut e1 sz
          let s2 :=
            if 0 < n then
              { s with engine := e2, bufSize := sz, sendLen := n.toNat,
                       followedByRecv := true,
                       tasks := s.tasks ++ [IOEventType.SEND] }
            else { s with engine := e2, bufSize := sz }
          { s2 with tasks := s2.tasks ++ [IOEventType.RECV] }
      else { s with tasks := s.tasks ++ [IOEventType.RECV] }
  | .ZeroReturn => { s with result := .ok (), resultSet := true }
  | _ => { s with result := .ok (), resultSet := true }

/-- The `SslShutdownAwaitable` constructor (`async/Awaitable.cc`,
lines 826–834): a fresh 16 KiB `m_ioBuf` and an `Ok`-initialised result slot,
then `tryShutdown`. -/
def shutInit {σ : Type} (M : EngineModel σ) (e : σ) : ShutSt σ :=
  tryShutdown M
    { engine := e, bufSize := kCipherBufSize, sendLen := 0,
      followedByRecv := false, result := .ok (), resultSet := false,
      tasks := [] }

/-- The raw-recv loop of `SslShutdownAwaitable::ShutdownRecvCtx::handleComplete`
(`async/Awaitable.cc`, lines 934–949).  Both `disconnect` and `fatal` raw
errors take the same branch in the source (any non-`NotReady` error).
`some (none, fedAny, s)`: loop broke on `NotReady`; `some (some b, fed, s)`:
early return `b`. -/
def shutRecvLoop {σ : Type} (M : EngineModel σ) :
    List RawRecvRes → Bool → ShutSt σ → Option (Option Bool × Bool × ShutSt σ)
  | [], _, _ => none
  | r :: rest, fed, s =>
    match r with
    | .notReady => some (none, fed, s)
    | .disconnect =>
        some (some true, fed, { s with result := .ok (), resultSet := true })
    | .fatal =>
        some (some true, fed, { s with result := .ok (), resultSet := true })
    | .bytes bs =>
        shutRecvLoop M rest true { s with engine := M.feedInput s.engine bs }

/-- `SslShutdownAwaitable::ShutdownRecvCtx::handleComplete`
(`async/Awaitable.cc`, lines 932–957, epoll/kqueue build). -/
def shutRecvHandle {σ : Type} (M : EngineModel σ) (raws : List RawRecvRes)
    (s : ShutSt σ) : Option (Bool × ShutSt σ) :=
  match shutRecvLoop M raws false s with
  | none => none
  | some (some b, _, s1) => some (b, s1)
  | some (none, fed, s1) =>
      if fed then some (true, tryShutdown M s1) else some (false, s1)

/-- The `while (m_length > 0)` raw-send loop of
`SslShutdownAwaitable::ShutdownSendCtx::handleComplete`
(`async/Awaitable.cc`, lines 982–999). -/
def shutSendLoop {σ : Type} (raws : List RawSendRes) (s : ShutSt σ) :
    Option (Option Bool × ShutSt σ) :=
  if s.sendLen = 0 then some (none, s)
  else
    match raws with
    | [] => none
    | r :: rest =>
      match r with
      | .notReady => some (some false, s)
      | .fatal =>
          some (some true, { s with result := .ok (), resultSet := true })
      | .sent n =>
          if n = 0 then some (some false, s)
          else shutSendLoop rest { s with sendLen := s.sendLen - n }

/-- `SslShutdownAwaitable::ShutdownSendCtx::handleComplete`
(`async/Awaitable.cc`, lines 980–1006, epoll/kqueue build). -/
def shutSendHandle {σ : Type} (M : EngineModel σ) (raws : List RawSendRes)
    (s : ShutSt σ) : Option (Bool × ShutSt σ) :=
  match shutSendLoop raws s with
  | none => none
  | some (some b, s1) => some (b, s1)
  | some (none, s1) =>
      if !s1.followedByRecv ∧ !s1.resultSet then
        some (true, tryShutdown M s1)
      else some (true, s1)

-- ==================== Concrete engines and states for witnesses ====================

/-- A concrete engine whose outbound BIO holds exactly one pending ciphertext
byte: `BIO_ctrl_pending` reports 1 and `BIO_read` returns `min(len, 1)`. -/
def enginePending1 : EngineModel Unit where
  read := fun _ _ => (.WantWrite, [], ())
  write := fun _ _ => (.WantWrite, 0, ())
  pendingOut := fun _ => 1
  extractOut := fun _ len => (Int.ofNat (min len 1), ())
  feedInput := fun e _ => e
  doHandshakeOp := fun _ => (.WantWrite, ())
  shutdownOp := fun _ => (.WantWrite, ())

/-- A receive awaitable over `enginePending1` right after construction:
16 KiB scratch, no chunk staged. -/
def recvStPending1 : RecvSt Unit :=
  { engine := (), plainLength := 4096, bufSize := 16384, sendLen := 0,
    result := .ok [], resultSet := false, tasks := [] }

/-- A concrete engine whose read reports `ZeroReturn` (clean peer close). -/
def engineZeroReturn : EngineModel Unit where
  read := fun _ _ => (.ZeroReturn, [], ())
  write := fun _ _ => (.ZeroReturn, 0, ())
  pendingOut := fun _ => 0
  extractOut := fun _ _ => (0, ())
  feedInput := fun e _ => e
  doHandshakeOp := fun _ => (.ZeroReturn, ())
  shutdownOp := fun _ => (.ZeroReturn, ())

/-- A concrete engine whose read reports `WantRead` (needs ciphertext). -/
def engineWantRead : EngineModel Unit where
  read := fun _ _ => (.WantRead, [], ())
  write := fun _ _ => (.WantRead, 0, ())
  pendingOut := fun _ => 0
  extractOut := fun _ _ => (0, ())
  feedInput := fun e _ => e
  doHandshakeOp := fun _ => (.WantRead, ())
  shutdownOp := fun _ => (.WantRead, ())

/-- A fresh receive awaitable state over a unit engine. -/
def recvStFresh : RecvSt Unit :=
  { engine := (), plainLength := 4096, bufSize := 16384, sendLen := 0,
    result := .ok [], resultSet := false, tasks := [] }

/-- A fresh shutdown awaitable state over a unit engine. -/
def shutStFresh : ShutSt Unit :=
  { engine := (), bufSize := 16384, sendLen := 0, followedByRecv := false,
    result := .ok (), resultSet := false, tasks := [] }

/-- A concrete engine whose handshake succeeds with 5 buffered ciphertext
bytes still pending (a post-handshake NewSessionTicket). -/
def engineTicket : EngineModel Unit where
  read := fun _ _ => (.WantRead, [], ())
  write := fun _ _ => (.WantRead, 0, ())
  pendingOut := fun _ => 5
  extractOut := fun _ len => (Int.ofNat (min len 5), ())
  feedInput := fun e _ => e
  doHandshakeOp := fun _ => (.Success, ())
  shutdownOp := fun _ => (.Success, ())

/-- A fresh handshake awaitable state over a unit engine. -/
def hsStFresh : HsSt Unit :=
  { engine := (), bufSize := 16384, sendLen := 0, followedByRecv := false,
    result := .ok, resultSet := false, handshakeSucceeded := false,
    tasks := [] }

/-- A handshake awaitable mid-flush: handshake already succeeded, 5 bytes of
ciphertext staged for the pure-flush SEND task. -/
def hsStFlush : HsSt Unit :=
  { hsStFresh with handshakeSucceeded := true, sendLen := 5 }

/-- The send-awaitable result invariant: whenever the result slot is set to
`Ok n`, `n` is the caller-supplied plaintext length. -/
def sendResultInv {σ : Type} (s : SendSt σ) : Prop :=
  s.resultSet = true → ∀ n, s.result = Except.ok n → n = s.plainLength

/-- The state of a zero-length send resolved in the constructor. -/
def sendStDoneAt {σ : Type} (e : σ) (bufSize : Nat) : SendSt σ :=
  { engine := e, plainLength := 0, plainOffset := 0, bufSize := bufSize,
    cipherLength := 0, ctxLen := 0, result := .ok 0, resultSet := true }

-- ==================== Theorems ====================

-- ==================== Helper lemmas ====================

/-- `sslErrorToResult` maps to `Success` exactly on `SSL_ERROR_NONE`. -/
theorem sslErrorToResult_eq_success_iff (e : Nat) :
    sslErrorToResult e = .Success ↔ e = sslErrorNone := by
  unfold sslErrorToResult
  split
  · simp_all
  · split
    · simp_all [sslErrorWantRead, sslErrorNone]
    · split
      · simp_all [sslErrorWantWrite, sslErrorNone]
      · split
        · simp_all [sslErrorZeroReturn, sslErrorNone]
        · split
          · simp_all [sslErrorSyscall, sslErrorNone]
          · simp_all

-- ==================== C4 ====================

/-- C4: for every call to `SslEngine::read` with a valid engine, the result is
never `Success` with `bytesRead = 0`: under the documented OpenSSL contract
that `SSL_get_error` yields `SSL_ERROR_NONE` only when the call made progress,
`Success` implies `bytesRead ≥ 1` (a peer close is reported as `ZeroReturn`
instead). -/
theorem C4_engine_read_success_positive (ret : Int) (err : Nat) (errnoV : Int)
    (n : Nat) (hc : opensslErrNoneImpliesProgress ret err)
    (h : engineRead true ret err errnoV = (.Success, n)) : 1 ≤ n := by
  unfold engineRead at h
  simp only [Bool.not_true, Bool.false_eq_true, if_false] at h
  split at h
  · rename_i hr
    simp only [Prod.mk.injEq] at h
    omega
  · rename_i hr
    split at h
    · simp only [Prod.mk.injEq] at h
      exact absurd h.1 (by simp)
    · split at h
      · simp only [Prod.mk.injEq] at h
        exact absurd h.1 (by simp)
      · simp only [Prod.mk.injEq] at h
        have hsucc : sslErrorToResult err = .Success := h.1
        have he : err = sslErrorNone := (sslErrorToResult_eq_success_iff err).mp hsucc
        exact absurd (hc he) hr

/-- Witness for C4 at the concrete OpenSSL outcome `ret = 1`, `err = NONE`. -/
theorem C4_engine_read_success_positive_witness :
    engineRead true 1 sslErrorNone 0 = (.Success, 1) ∧ 1 ≤ 1 :=
  ⟨by decide,
   C4_engine_read_success_positive 1 sslErrorNone 0 1 (fun _ => by decide) (by decide)⟩

-- ==================== C5 ====================

/-- C5 counterexample: the terminal phase `Completed` is not sticky.  With the
phase at `Completed`, a `doHandshake` call whose underlying
`SSL_do_handshake` reports `SSL_ERROR_WANT_READ` (a mid-stream renegotiation)
leaves the phase at `InProgress`, moving it out of the terminal state —
`SslEngine::doHandshake` unconditionally assigns `InProgress` on entry. -/
theorem C5_sticky_counterexample :
    (engineDoHandshake true 0 sslErrorWantRead SslHandshakeState.Completed).2 =
        SslHandshakeState.InProgress ∧
    (engineDoHandshake true 0 sslErrorWantRead SslHandshakeState.Completed).2 ≠
        SslHandshakeState.Completed := by
  constructor
  · decide
  · decide

/-- C5 (amended): the handshake phase follows
NotStarted → InProgress → Completed | Failed, but terminal states are not
sticky: each `doHandshake` call on a valid engine first resets the phase to
`InProgress`, and the phase at return is determined solely by that call's own
outcome — `Completed` on `Success`, `Failed` on a fatal outcome
(`Error`/`Syscall`/`ZeroReturn`), and `InProgress` on `WantRead`/`WantWrite` —
regardless of the phase before the call.  The hypothesis is the OpenSSL
contract that `SSL_get_error` yields `SSL_ERROR_NONE` only when
`SSL_do_handshake` returned 1. -/
theorem C5_phase_determined_by_outcome (ret : Int) (err : Nat)
    (st : SslHandshakeState) (hc : err = sslErrorNone → ret = 1) :
    ((engineDoHandshake true ret err st).1 = .Success →
        (engineDoHandshake true ret err st).2 = .Completed) ∧
    ((engineDoHandshake true ret err st).1 = .Error ∨
        (engineDoHandshake true ret err st).1 = .Syscall ∨
        (engineDoHandshake true ret err st).1 = .ZeroReturn →
        (engineDoHandshake true ret err st).2 = .Failed) ∧
    ((engineDoHandshake true ret err st).1 = .WantRead ∨
        (engineDoHandshake true ret err st).1 = .WantWrite →
        (engineDoHandshake true ret err st).2 = .InProgress) := by
  unfold engineDoHandshake
  simp only [Bool.not_true, Bool.false_eq_true, if_false]
  by_cases h1 : ret = 1
  · simp [h1]
  · simp only [h1, if_false]
    split
    · rename_i hfatal
      refine ⟨?_, fun _ => rfl, ?_⟩
      · intro hsu
        rcases hfatal with hf | hf | hf <;> rw [hf] at hsu <;> exact absurd hsu (by simp)
      · intro hw
        rcases hw with hw | hw <;>
          rcases hfatal with hf | hf | hf <;> rw [hf] at hw <;> simp at hw
    · rename_i hnf
      refine ⟨?_, ?_, fun _ => rfl⟩
      · intro hsu
        have he : err = sslErrorNone := (sslErrorToResult_eq_success_iff err).mp hsu
        exact absurd (hc he) h1
      · intro hf
        exact absurd hf hnf

/-- Witness for C5 (amended) at `ret = 0`, `err = WANT_READ`, phase
`NotStarted`: the call moves the phase to `InProgress`. -/
theorem C5_phase_witness :
    (engineDoHandshake true 0 sslErrorWantRead SslHandshakeState.NotStarted).1 =
        .WantRead ∧
    (engineDoHandshake true 0 sslErrorWantRead SslHandshakeState.NotStarted).2 =
        .InProgress :=
  ⟨by decide,
   (C5_phase_determined_by_outcome 0 sslErrorWantRead SslHandshakeState.NotStarted
      (by intro h; exact absurd h (by decide))).2.2 (Or.inl (by decide))⟩

-- ==================== Buffer-policy lemmas ====================

/-- The growth loop never returns less than its starting value. -/
theorem growLoop_ge_self (required : Nat) : ∀ n, n ≤ growLoop required n := by
  refine growLoop.induct required (motive := fun n => n ≤ growLoop required n) ?_ ?_ ?_
  · intro x h hg
    rw [growLoop, dif_pos h, if_pos hg]
    omega
  · intro x h hg ih
    rw [growLoop, dif_pos h, if_neg hg]
    omega
  · intro x h
    rw [growLoop, dif_neg h]

/-- The growth loop always reaches the required size. -/
theorem growLoop_ge_required (required : Nat) :
    ∀ n, required ≤ growLoop required n := by
  refine growLoop.induct required
    (motive := fun n => required ≤ growLoop required n) ?_ ?_ ?_
  · intro x h hg
    rw [growLoop, dif_pos h, if_pos hg]
  · intro x h hg ih
    rw [growLoop, dif_pos h, if_neg hg]
    exact ih
  · intro x h
    rw [growLoop, dif_neg h]
    omega

/-- Below the overflow guard, the growth loop grows purely by doubling. -/
theorem growLoop_doubling (required : Nat) (h2 : required ≤ 2 ^ 63) :
    ∀ n, 0 < n → ∃ k, growLoop required n = n * 2 ^ k := by
  refine growLoop.induct required
    (motive := fun n => 0 < n → ∃ k, growLoop required n = n * 2 ^ k) ?_ ?_ ?_
  · intro x h hg hx
    exfalso
    have hs : SIZEMAX / 2 = 2 ^ 63 - 1 := by decide
    rcases hg with hg | hg <;> omega
  · intro x h hg ih hx
    obtain ⟨k, hk⟩ := ih (by omega)
    exact ⟨k + 1, by rw [growLoop, dif_pos h, if_neg hg, hk]; ring⟩
  · intro x h hx
    exact ⟨0, by rw [growLoop, dif_neg h]; simp⟩

/-- `ensureBufferSize` never shrinks the buffer. -/
theorem ensureBufferSize_never_shrinks (size required : Nat) :
    size ≤ (ensureBufferSize size required).2 := by
  by_cases h0 : required = 0 ∨ required ≤ size
  · simp [ensureBufferSize, h0]
  · have hself := growLoop_ge_self required
      (if size < kCipherBufSize then kCipherBufSize else size)
    have hn0ge : size ≤ (if size < kCipherBufSize then kCipherBufSize else size) := by
      split <;> omega
    by_cases h1 : growLoop required
        (if size < kCipherBufSize then kCipherBufSize else size) < required
    · simp [ensureBufferSize, h0, h1]
    · simp only [ensureBufferSize, h0, if_false, h1]
      omega

/-- `ensureBufferSize` always succeeds and reaches the required size (the
`return false` in the source is dead code). -/
theorem ensureBufferSize_reaches (size required : Nat) :
    (ensureBufferSize size required).1 = true ∧
    required ≤ (ensureBufferSize size required).2 := by
  by_cases h0 : required = 0 ∨ required ≤ size
  · refine ⟨by simp [ensureBufferSize, h0], ?_⟩
    have h2 : (ensureBufferSize size required).2 = size := by
      simp [ensureBufferSize, h0]
    rw [h2]
    rcases h0 with h | h <;> omega
  · have hreq := growLoop_ge_required required
      (if size < kCipherBufSize then kCipherBufSize else size)
    by_cases h1 : growLoop required
        (if size < kCipherBufSize then kCipherBufSize else size) < required
    · omega
    · constructor
      · simp [ensureBufferSize, h0, h1]
      · simp only [ensureBufferSize, h0, if_false, h1]
        omega

/-- When `ensureBufferSize` grows the buffer, the new size is
`max(old size, 16 KiB)` doubled some number of times (for any requirement
below the overflow guard). -/
theorem ensureBufferSize_doubling (size required : Nat) (h : required ≤ 2 ^ 63) :
    (ensureBufferSize size required).2 = size ∨
    ∃ k, (ensureBufferSize size required).2 = max size kCipherBufSize * 2 ^ k := by
  by_cases h0 : required = 0 ∨ required ≤ size
  · left
    simp [ensureBufferSize, h0]
  · right
    have hmax : (if size < kCipherBufSize then kCipherBufSize else size) =
        max size kCipherBufSize := by
      split
      · exact (Nat.max_eq_right (Nat.le_of_lt (by assumption))).symm
      · exact (Nat.max_eq_left (Nat.le_of_not_lt (by assumption))).symm
    have hpos : 0 < (if size < kCipherBufSize then kCipherBufSize else size) := by
      have hk : (0 : Nat) < kCipherBufSize := by decide
      split <;> omega
    obtain ⟨k, hk⟩ := growLoop_doubling required h
      (if size < kCipherBufSize then kCipherBufSize else size) hpos
    have hreq := growLoop_ge_required required
      (if size < kCipherBufSize then kCipherBufSize else size)
    by_cases h1 : growLoop required
        (if size < kCipherBufSize then kCipherBufSize else size) < required
    · omega
    · refine ⟨k, ?_⟩
      simp only [ensureBufferSize, h0, if_false, h1]
      rw [hmax]
      simp only [hmax] at hk
      simpa using hk

/-- The requested drain-chunk capacity is always between 16 KiB and 64 KiB. -/
theorem drainChunkSize_bounds (pending : Nat) :
    kCipherBufSize ≤ drainChunkSize pending ∧
    drainChunkSize pending ≤ kMaxDrainBytes := by
  constructor
  · unfold drainChunkSize
    split
    · exact Nat.le_refl _
    · exact Nat.le_max_left _ _
  · unfold drainChunkSize
    split
    · decide
    · have h1 : min pending kMaxDrainBytes ≤ kMaxDrainBytes := Nat.min_le_right _ _
      have h2 : kCipherBufSize ≤ kMaxDrainBytes := by decide
      exact Nat.max_le.mpr ⟨h2, h1⟩

/-- Characterisation of `prepareSendChunk` when the cross-arming chunk is
produced: no chunk is pending, the outbound queue is non-empty, and the
extraction returns `n > 0` bytes. -/
theorem prepareSendChunk_ready {σ : Type} (M : EngineModel σ) (s : RecvSt σ)
    (n : Int) (e' : σ)
    (hsend : s.sendLen = 0)
    (hp : 0 < M.pendingOut s.engine)
    (hext : M.extractOut s.engine
        (min (M.pendingOut s.engine)
          (ensureBufferSize s.bufSize
            (drainChunkSize (M.pendingOut s.engine))).2) = (n, e'))
    (hn : 0 < n) :
    prepareSendChunk M s =
      (.Ready, { s with engine := e',
                        bufSize := (ensureBufferSize s.bufSize
                          (drainChunkSize (M.pendingOut s.engine))).2,
                        sendLen := n.toNat }) := by
  have hne : ¬ (M.pendingOut s.engine = 0) := by omega
  have hnle : ¬ (n ≤ 0) := by omega
  rcases hEq : ensureBufferSize s.bufSize (drainChunkSize (M.pendingOut s.engine))
    with ⟨b, sz⟩
  have hb : b = true := by
    have h1 := (ensureBufferSize_reaches s.bufSize
      (drainChunkSize (M.pendingOut s.engine))).1
    rw [hEq] at h1
    exact h1
  subst hb
  rw [hEq] at hext
  simp [prepareSendChunk, hsend, hne, hEq, hext, hnle]

/-- C8 counterexample: the extracted ciphertext chunk does *not* have size
`max(16 KiB, min(pending, 64 KiB))`.  With one pending outbound byte the
formula gives 16384, but `prepareSendChunk` extracts
`min(pending, scratch size) = 1` byte: the formula is the requested scratch
*capacity*, not the chunk size. -/
theorem C8_chunk_size_counterexample :
    (prepareSendChunk enginePending1 recvStPending1).1 = SendChunkState.Ready ∧
    (prepareSendChunk enginePending1 recvStPending1).2.sendLen = 1 ∧
    max kCipherBufSize (min 1 kMaxDrainBytes) = 16384 ∧
    (prepareSendChunk enginePending1 recvStPending1).2.sendLen ≠
      max kCipherBufSize (min 1 kMaxDrainBytes) := by
  refine ⟨by decide, by decide, by decide, by decide⟩

/-- C8 (amended): the ciphertext scratch buffer is at least 16 KiB (the recv
constructor resizes any smaller shared buffer up to 16 KiB), `ensureBufferSize`
never shrinks it and grows it only by doubling from `max(current, 16 KiB)`
(below the overflow guard); before each extraction the scratch is grown to at
least the requested capacity `max(16 KiB, min(pending, 64 KiB))`
(`drainChunkSize`), and the extracted chunk size is the count the engine
returns for a `min(pending, scratch size)`-byte request — not the capacity
formula itself. -/
theorem C8_buffer_policy {σ : Type} (M : EngineModel σ) (s : RecvSt σ)
    (size required : Nat) (n : Int) (e' : σ)
    (hreq : required ≤ 2 ^ 63)
    (hsend : s.sendLen = 0)
    (hp : 0 < M.pendingOut s.engine)
    (hext : M.extractOut s.engine
        (min (M.pendingOut s.engine)
          (ensureBufferSize s.bufSize
            (drainChunkSize (M.pendingOut s.engine))).2) = (n, e'))
    (hn : 0 < n) :
    size ≤ (ensureBufferSize size required).2 ∧
    (ensureBufferSize size required).1 = true ∧
    required ≤ (ensureBufferSize size required).2 ∧
    kCipherBufSize ≤ recvCtorBufSize size ∧
    ((ensureBufferSize size required).2 = size ∨
      ∃ k, (ensureBufferSize size required).2 = max size kCipherBufSize * 2 ^ k) ∧
    (prepareSendChunk M s).1 = SendChunkState.Ready ∧
    (prepareSendChunk M s).2.sendLen = n.toNat ∧
    drainChunkSize (M.pendingOut s.engine) ≤ (prepareSendChunk M s).2.bufSize ∧
    s.bufSize ≤ (prepareSendChunk M s).2.bufSize := by
  have hchar := prepareSendChunk_ready M s n e' hsend hp hext hn
  have hreach := ensureBufferSize_reaches s.bufSize
    (drainChunkSize (M.pendingOut s.engine))
  have hshr := ensureBufferSize_never_shrinks s.bufSize
    (drainChunkSize (M.pendingOut s.engine))
  refine ⟨ensureBufferSize_never_shrinks size required,
          (ensureBufferSize_reaches size required).1,
          (ensureBufferSize_reaches size required).2,
          ?_, ensureBufferSize_doubling size required hreq, ?_, ?_, ?_, ?_⟩
  · unfold recvCtorBufSize
    split <;> omega
  · rw [hchar]
  · rw [hchar]
  · rw [hchar]
    exact hreach.2
  · rw [hchar]
    exact hshr

/-- Witness for C8 (amended) on the concrete one-pending-byte engine. -/
theorem C8_buffer_policy_witness :
    100 ≤ (ensureBufferSize 100 20000).2 ∧
    (ensureBufferSize 100 20000).1 = true ∧
    20000 ≤ (ensureBufferSize 100 20000).2 ∧
    kCipherBufSize ≤ recvCtorBufSize 100 ∧
    ((ensureBufferSize 100 20000).2 = 100 ∨
      ∃ k, (ensureBufferSize 100 20000).2 = max 100 kCipherBufSize * 2 ^ k) ∧
    (prepareSendChunk enginePending1 recvStPending1).1 = SendChunkState.Ready ∧
    (prepareSendChunk enginePending1 recvStPending1).2.sendLen = (1 : Int).toNat ∧
    drainChunkSize (enginePending1.pendingOut recvStPending1.engine) ≤
      (prepareSendChunk enginePending1 recvStPending1).2.bufSize ∧
    recvStPending1.bufSize ≤ (prepareSendChunk enginePending1 recvStPending1).2.bufSize :=
  C8_buffer_policy enginePending1 recvStPending1 100 20000 1 ()
    (by decide) (by decide) (by decide) (by decide) (by decide)

-- ==================== C9 ====================

/-- C9: once at least one plaintext byte has been accumulated in the caller's
buffer during a drain pass, a subsequent engine read result of `WantWrite`,
`ZeroReturn`, or a fatal result (`Error`/`Syscall`) in the same pass completes
the awaitable with `Ok` carrying exactly the bytes accumulated so far; the
error or close condition is not surfaced. -/
theorem C9_partial_recv_masks_failures {σ : Type} (M : EngineModel σ)
    (pl : Nat) (e e' : σ) (acc chunk : List Nat) (r : SslIOResult)
    (hacc : acc ≠ [])
    (hlt : acc.length < pl)
    (hread : M.read e (pl - acc.length) = (r, chunk, e'))
    (hr : r = .WantWrite ∨ r = .ZeroReturn ∨ r = .Error ∨ r = .Syscall) :
    drainLoop M pl e acc = (.Completed, some (.ok acc), e') := by
  have hlen : 0 < acc.length := List.length_pos.mpr hacc
  rw [drainLoop, dif_pos hlt, hread]
  rcases hr with h | h | h | h <;> subst h <;> simp [hlen]

/-- Witness for C9: one byte already accumulated, then the engine reports
`WantWrite`; the awaitable completes `Ok` with that byte. -/
theorem C9_partial_recv_witness :
    drainLoop enginePending1 2 () [7] = (.Completed, some (.ok [7]), ()) :=
  C9_partial_recv_masks_failures enginePending1 2 () () [7] [] .WantWrite
    (by decide) (by decide) rfl (Or.inl rfl)

-- ==================== C3 ====================

/-- C3: peer close during receive is not an error.  For a receive that has
produced no plaintext, (i) an engine read result of `ZeroReturn` and (ii) a
raw-recv `disconnect` error both complete the awaitable with `Ok` carrying
empty bytes, never with an `Err`. -/
theorem C3_peer_close_yields_ok_empty {σ : Type} (M M2 : EngineModel σ)
    (s t : RecvSt σ) (e1 e2 : σ) (c1 c2 : List Nat) (raws : List RawRecvRes)
    (hpl : 0 < s.plainLength)
    (hzr : M.read s.engine s.plainLength = (.ZeroReturn, c1, e1))
    (hpl2 : 0 < t.plainLength)
    (hwr : M2.read t.engine t.plainLength = (.WantRead, c2, e2)) :
    recvHandleComplete M [] s =
      some (true, { s with engine := e1, result := .ok [], resultSet := true }) ∧
    recvHandleComplete M2 (.disconnect :: raws) t =
      some (true, { t with engine := e2, result := .ok [], resultSet := true }) := by
  constructor
  · have hd : drainLoop M s.plainLength s.engine [] =
        (.Completed, some (.ok []), e1) := by
      rw [drainLoop, dif_pos (by simpa using hpl)]
      rw [show s.plainLength - List.length ([] : List Nat) = s.plainLength by simp]
      rw [hzr]
      simp
    simp [recvHandleComplete, drainPlaintextS, hd]
  · have hd : drainLoop M2 t.plainLength t.engine [] = (.NeedRecv, none, e2) := by
      rw [drainLoop, dif_pos (by simpa using hpl2)]
      rw [show t.plainLength - List.length ([] : List Nat) = t.plainLength by simp]
      rw [hwr]
      simp
    simp [recvHandleComplete, drainPlaintextS, hd, recvLoop]

/-- Witness for C3: both concrete peer-close scenarios end in `Ok` empty. -/
theorem C3_peer_close_witness :
    recvHandleComplete engineZeroReturn [] recvStFresh =
      some (true, { recvStFresh with engine := (), result := .ok [],
                                     resultSet := true }) ∧
    recvHandleComplete engineWantRead [RawRecvRes.disconnect] recvStFresh =
      some (true, { recvStFresh with engine := (), result := .ok [],
                                     resultSet := true }) :=
  C3_peer_close_yields_ok_empty engineZeroReturn engineWantRead
    recvStFresh recvStFresh () () [] [] []
    (by decide) rfl (by decide) rfl

-- ==================== C2 ====================

/-- C2: cross-arming in receive.  When the engine's read reports `WantWrite`
before any plaintext was produced, and the engine has pending outbound
ciphertext whose extraction succeeds, the awaitable extracts the pending
ciphertext into its scratch buffer (`sendLen` set to the extracted count,
scratch grown to the requested capacity) and enqueues a SEND task followed by
a RECV task, so the pending ciphertext is sent before reading resumes. -/
theorem C2_recv_want_write_cross_arms {σ : Type} (M : EngineModel σ)
    (s : RecvSt σ) (e1 e2 : σ) (chunk : List Nat) (n : Int)
    (raws : List RawRecvRes)
    (hpl : 0 < s.plainLength)
    (hsend : s.sendLen = 0)
    (hww : M.read s.engine s.plainLength = (.WantWrite, chunk, e1))
    (hp : 0 < M.pendingOut e1)
    (hext : M.extractOut e1
        (min (M.pendingOut e1)
          (ensureBufferSize s.bufSize (drainChunkSize (M.pendingOut e1))).2) =
        (n, e2))
    (hn : 0 < n) :
    recvHandleComplete M raws s =
      some (true,
        { s with engine := e2,
                 bufSize := (ensureBufferSize s.bufSize
                   (drainChunkSize (M.pendingOut e1))).2,
                 sendLen := n.toNat,
                 tasks := s.tasks ++ [IOEventType.SEND, IOEventType.RECV] }) := by
  have hd : drainLoop M s.plainLength s.engine [] = (.NeedSend, none, e1) := by
    rw [drainLoop, dif_pos (by simpa using hpl)]
    rw [show s.plainLength - List.length ([] : List Nat) = s.plainLength by simp]
    rw [hww]
    simp
  have hchar := prepareSendChunk_ready M { s with engine := e1 } n e2 hsend hp hext hn
  simp [recvHandleComplete, drainPlaintextS, hd, scheduleSendThenRecv, hchar]

/-- Witness for C2 on the concrete one-pending-byte engine: the task FIFO
ends as `[SEND, RECV]`. -/
theorem C2_recv_want_write_witness :
    recvHandleComplete enginePending1 [] recvStFresh =
      some (true,
        { recvStFresh with engine := (),
                           bufSize := (ensureBufferSize recvStFresh.bufSize
                             (drainChunkSize (enginePending1.pendingOut ()))).2,
                           sendLen := (1 : Int).toNat,
                           tasks := recvStFresh.tasks ++
                             [IOEventType.SEND, IOEventType.RECV] }) :=
  C2_recv_want_write_cross_arms enginePending1 recvStFresh () () [] 1 []
    (by decide) rfl rfl (by decide) (by decide) (by decide)

-- ==================== C7 helper lemmas ====================

/-- `tryShutdown` never stores an error: every branch either leaves the result
slot untouched or stores `Ok`. -/
theorem tryShutdown_result_ok {σ : Type} (M : EngineModel σ) (s : ShutSt σ)
    (h : s.result = .ok ()) : (tryShutdown M s).result = .ok () := by
  unfold tryShutdown
  rcases hso : M.shutdownOp s.engine with ⟨ret, e1⟩
  cases ret
  case Success => simp
  case WantWrite =>
    simp only
    rcases hE : ensureBufferSize s.bufSize (M.pendingOut e1) with ⟨ok, sz⟩
    cases ok
    · simp
    · simp only []
      rcases hX : M.extractOut e1 sz with ⟨n, e2⟩
      by_cases hn : 0 < n
      · simp [hX, hn, h]
      · simp [hX, hn]
  case WantRead =>
    simp only
    by_cases hp : 0 < M.pendingOut e1
    · simp only [hp, if_true]
      rcases hE : ensureBufferSize s.bufSize (M.pendingOut e1) with ⟨ok, sz⟩
      cases ok
      · simp
      · simp only []
        rcases hX : M.extractOut e1 sz with ⟨n, e2⟩
        by_cases hn : 0 < n
        · simp [hX, hn, h]
        · simp [hX, hn, h]
    · simp [hp, h]
  case ZeroReturn => simp
  case Error => simp
  case Syscall => simp

/-- The shutdown raw-recv loop never stores an error. -/
theorem shutRecvLoop_result_ok {σ : Type} (M : EngineModel σ) :
    ∀ (raws : List RawRecvRes) (fed : Bool) (s : ShutSt σ)
      (out : Option Bool × Bool × ShutSt σ),
      s.result = .ok () → shutRecvLoop M raws fed s = some out →
      out.2.2.result = .ok () := by
  intro raws
  induction raws with
  | nil =>
      intro fed s out h hout
      simp [shutRecvLoop] at hout
  | cons r rest ih =>
      intro fed s out h hout
      cases r <;> simp only [shutRecvLoop] at hout
      · cases hout
        exact h
      · cases hout
        rfl
      · cases hout
        rfl
      · refine ih true _ out ?_ hout
        exact h

/-- The shutdown raw-send loop never stores an error. -/
theorem shutSendLoop_result_ok {σ : Type} :
    ∀ (raws : List RawSendRes) (s : ShutSt σ) (out : Option Bool × ShutSt σ),
      s.result = .ok () → shutSendLoop raws s = some out →
      out.2.result = .ok () := by
  intro raws
  induction raws with
  | nil =>
      intro s out h hout
      rw [shutSendLoop.eq_def] at hout
      by_cases hz : s.sendLen = 0
      · rw [if_pos hz] at hout
        cases hout
        exact h
      · rw [if_neg hz] at hout
        cases hout
  | cons r rest ih =>
      intro s out h hout
      rw [shutSendLoop.eq_def] at hout
      by_cases hz : s.sendLen = 0
      · rw [if_pos hz] at hout
        cases hout
        exact h
      · rw [if_neg hz] at hout
        cases r
        · cases hout
          exact h
        · cases hout
          rfl
        · rename_i n
          by_cases hn : n = 0
          · simp only [hn, if_pos rfl] at hout
            cases hout
            exact h
          · simp only [hn, if_neg, if_false] at hout
            refine ih _ out ?_ hout
            exact h

/-- `ShutdownRecvCtx::handleComplete` never stores an error. -/
theorem shutRecvHandle_result_ok {σ : Type} (M : EngineModel σ)
    (raws : List RawRecvRes) (s : ShutSt σ) (b : Bool) (s' : ShutSt σ)
    (h : s.result = .ok ()) (hout : shutRecvHandle M raws s = some (b, s')) :
    s'.result = .ok () := by
  unfold shutRecvHandle at hout
  rcases hL : shutRecvLoop M raws false s with _ | out
  · rw [hL] at hout
    cases hout
  · have hok := shutRecvLoop_result_ok M raws false s out h hL
    rw [hL] at hout
    rcases out with ⟨ob, fed, s1⟩
    rcases ob with _ | ob
    · simp only at hout
      by_cases hf : fed = true
      · rw [hf] at hout
        simp only [if_true] at hout
        cases hout
        exact tryShutdown_result_ok M s1 hok
      · have : fed = false := by
          cases fed
          · rfl
          · exact absurd rfl hf
        rw [this] at hout
        simp only [Bool.false_eq_true, if_false] at hout
        cases hout
        exact hok
    · simp only at hout
      cases hout
      exact hok

/-- `ShutdownSendCtx::handleComplete` never stores an error. -/
theorem shutSendHandle_result_ok {σ : Type} (M : EngineModel σ)
    (raws : List RawSendRes) (s : ShutSt σ) (b : Bool) (s' : ShutSt σ)
    (h : s.result = .ok ()) (hout : shutSendHandle M raws s = some (b, s')) :
    s'.result = .ok () := by
  unfold shutSendHandle at hout
  rcases hL : shutSendLoop raws s with _ | out
  · rw [hL] at hout
    cases hout
  · have hok := shutSendLoop_result_ok raws s out h hL
    rw [hL] at hout
    rcases out with ⟨ob, s1⟩
    rcases ob with _ | ob
    · simp only at hout
      by_cases hc : !s1.followedByRecv ∧ !s1.resultSet
      · rw [if_pos hc] at hout
        cases hout
        exact tryShutdown_result_ok M s1 hok
      · rw [if_neg hc] at hout
        cases hout
        exact hok
    · simp only at hout
      cases hout
      exact hok

/-- C7: every terminal path of `SslShutdownAwaitable` yields `Ok`.  The
constructor, `tryShutdown`, the shutdown recv wake-up handler, and the
shutdown send wake-up handler never store an error in the result slot: any
fatal engine result, any raw-I/O error, and `ZeroReturn` all leave the result
`Ok`. -/
theorem C7_shutdown_always_ok {σ : Type} (M : EngineModel σ) (e : σ)
    (u s t : ShutSt σ) (raws : List RawRecvRes) (raws2 : List RawSendRes)
    (br bs : Bool) (sr ss : ShutSt σ)
    (hu : u.result = .ok ())
    (hs : s.result = .ok ())
    (ht : t.result = .ok ())
    (hrec : shutRecvHandle M raws s = some (br, sr))
    (hsnd : shutSendHandle M raws2 t = some (bs, ss)) :
    (shutInit M e).result = .ok () ∧
    (tryShutdown M u).result = .ok () ∧
    sr.result = .ok () ∧
    ss.result = .ok () := by
  refine ⟨?_, tryShutdown_result_ok M u hu,
          shutRecvHandle_result_ok M raws s br sr hs hrec,
          shutSendHandle_result_ok M raws2 t bs ss ht hsnd⟩
  unfold shutInit
  exact tryShutdown_result_ok M _ rfl

/-- Witness for C7: a concrete shutdown whose engine reports `ZeroReturn`,
whose recv handler sees `NotReady`, and whose send handler re-enters
`tryShutdown` — all paths end `Ok`. -/
theorem C7_shutdown_witness :
    (shutInit engineZeroReturn ()).result = .ok () ∧
    (tryShutdown engineZeroReturn shutStFresh).result = .ok () ∧
    shutStFresh.result = .ok () ∧
    (tryShutdown engineZeroReturn shutStFresh).result = .ok () :=
  C7_shutdown_always_ok engineZeroReturn () shutStFresh shutStFresh shutStFresh
    [RawRecvRes.notReady] [] false true shutStFresh
    (tryShutdown engineZeroReturn shutStFresh)
    rfl rfl rfl rfl rfl

-- ==================== C6 ====================

/-- Characterisation of `tryHandshake` when `doHandshake` reports `Success`
with a non-empty outbound queue and the extraction succeeds: the handshake is
marked succeeded, the result slot holds `Ok` but is *not* yet set, and exactly
one SEND task is armed. -/
theorem tryHandshake_success_flush {σ : Type} (M : EngineModel σ) (s : HsSt σ)
    (e1 e2 : σ) (n : Int)
    (hdo : M.doHandshakeOp s.engine = (.Success, e1))
    (hp : 0 < M.pendingOut e1)
    (hext : M.extractOut e1
        (ensureBufferSize s.bufSize (M.pendingOut e1)).2 = (n, e2))
    (hn : 0 < n) :
    tryHandshake M s =
      { s with engine := e2,
               bufSize := (ensureBufferSize s.bufSize (M.pendingOut e1)).2,
               sendLen := n.toNat, followedByRecv := false, result := .ok,
               handshakeSucceeded := true,
               tasks := s.tasks ++ [IOEventType.SEND] } := by
  unfold tryHandshake
  rw [hdo]
  simp only [hp, if_true]
  rcases hE : ensureBufferSize s.bufSize (M.pendingOut e1) with ⟨ok, sz⟩
  have hok : ok = true := by
    have h1 := (ensureBufferSize_reaches s.bufSize (M.pendingOut e1)).1
    rw [hE] at h1
    exact h1
  subst hok
  rw [hE] at hext
  simp only [] at hext
  simp [hext, hn]

/-- Over a script of strictly positive successful raw sends, the handshake
send loop can only drain the chunk: it never returns early, and it leaves the
result slot, the result-set flag, and the succeeded flag untouched. -/
theorem hsSendLoop_all_sent {σ : Type} :
    ∀ (raws : List RawSendRes) (s : HsSt σ) (out : Option Bool × HsSt σ),
      (∀ r ∈ raws, ∃ k, r = RawSendRes.sent k ∧ 0 < k) →
      hsSendLoop raws s = some out →
      out.1 = none ∧ out.2.result = s.result ∧ out.2.resultSet = s.resultSet ∧
        out.2.handshakeSucceeded = s.handshakeSucceeded := by
  intro raws
  induction raws with
  | nil =>
      intro s out hall hout
      rw [hsSendLoop.eq_def] at hout
      by_cases hz : s.sendLen = 0
      · rw [if_pos hz] at hout
        cases hout
        exact ⟨rfl, rfl, rfl, rfl⟩
      · rw [if_neg hz] at hout
        cases hout
  | cons r rest ih =>
      intro s out hall hout
      rw [hsSendLoop.eq_def] at hout
      by_cases hz : s.sendLen = 0
      · rw [if_pos hz] at hout
        cases hout
        exact ⟨rfl, rfl, rfl, rfl⟩
      · rw [if_neg hz] at hout
        obtain ⟨k, hk, hkpos⟩ := hall r (List.mem_cons_self r rest)
        subst hk
        have hk0 : ¬ (k = 0) := by omega
        simp only [] at hout
        rw [if_neg hk0] at hout
        have hrec := ih _ out (fun r hr => hall r (List.mem_cons_of_mem _ hr)) hout
        exact ⟨hrec.1, hrec.2.1, hrec.2.2.1, hrec.2.2.2⟩

/-- After a successful handshake that armed the pure-flush SEND task, a wake-up
that drains the chunk (raw sends only, all positive) completes the awaitable
with the stored result and does not re-enter `tryHandshake`. -/
theorem hsSendHandle_succeeded {σ : Type} (M : EngineModel σ) (t : HsSt σ)
    (raws : List RawSendRes) (out : Bool × Bool × HsSt σ)
    (hsucc : t.handshakeSucceeded = true)
    (hall : ∀ r ∈ raws, ∃ k, r = RawSendRes.sent k ∧ 0 < k)
    (hout : hsSendHandle M raws t = some out) :
    out.1 = true ∧ out.2.1 = false ∧ out.2.2.resultSet = true ∧
      out.2.2.result = t.result := by
  unfold hsSendHandle at hout
  rcases hL : hsSendLoop raws t with _ | l
  · rw [hL] at hout
    cases hout
  · have hprops := hsSendLoop_all_sent raws t l hall hL
    rw [hL] at hout
    rcases l with ⟨ob, s1⟩
    have hob : ob = none := hprops.1
    subst hob
    have hs1 : s1.handshakeSucceeded = true := hprops.2.2.2.trans hsucc
    simp only [hs1, if_true] at hout
    cases hout
    exact ⟨rfl, rfl, rfl, hprops.2.1⟩

/-- C6: when `doHandshake` returns `Success` while the outbound ciphertext
queue is non-empty (e.g. a buffered `NewSessionTicket`), the handshake
awaitable marks the handshake as succeeded, stores `Ok`, and arms exactly one
SEND task whose only job is to flush that ciphertext; when that send drains,
the awaitable completes `Ok` without calling `doHandshake` again. -/
theorem C6_handshake_flush_ticket {σ : Type} (M : EngineModel σ) (s : HsSt σ)
    (e1 e2 : σ) (n : Int) (t : HsSt σ) (raws : List RawSendRes)
    (out : Bool × Bool × HsSt σ)
    (htasks : s.tasks = [])
    (hset : s.resultSet = false)
    (hdo : M.doHandshakeOp s.engine = (.Success, e1))
    (hp : 0 < M.pendingOut e1)
    (hext : M.extractOut e1
        (ensureBufferSize s.bufSize (M.pendingOut e1)).2 = (n, e2))
    (hn : 0 < n)
    (hsucc : t.handshakeSucceeded = true)
    (htres : t.result = .ok)
    (hall : ∀ r ∈ raws, ∃ k, r = RawSendRes.sent k ∧ 0 < k)
    (hout : hsSendHandle M raws t = some out) :
    (tryHandshake M s).handshakeSucceeded = true ∧
    (tryHandshake M s).tasks = [IOEventType.SEND] ∧
    (tryHandshake M s).result = .ok ∧
    (tryHandshake M s).resultSet = false ∧
    out.1 = true ∧ out.2.1 = false ∧ out.2.2.resultSet = true ∧
      out.2.2.result = .ok := by
  have hchar := tryHandshake_success_flush M s e1 e2 n hdo hp hext hn
  have hdrain := hsSendHandle_succeeded M t raws out hsucc hall hout
  refine ⟨?_, ?_, ?_, ?_, hdrain.1, hdrain.2.1, hdrain.2.2.1,
          hdrain.2.2.2.trans htres⟩
  · rw [hchar]
  · rw [hchar]
    simp [htasks]
  · rw [hchar]
  · rw [hchar]
    exact hset

/-- Witness for C6 on the concrete ticket engine: one SEND task armed, then a
5-byte raw send completes the awaitable `Ok` without re-entering the
handshake. -/
theorem C6_handshake_flush_witness :
    (tryHandshake engineTicket hsStFresh).handshakeSucceeded = true ∧
    (tryHandshake engineTicket hsStFresh).tasks = [IOEventType.SEND] ∧
    (tryHandshake engineTicket hsStFresh).result = .ok ∧
    (tryHandshake engineTicket hsStFresh).resultSet = false ∧
    (true, false,
      ({ hsStFlush with sendLen := 0, resultSet := true } : HsSt Unit)).1 = true ∧
    (true, false,
      ({ hsStFlush with sendLen := 0, resultSet := true } : HsSt Unit)).2.1 = false ∧
    (true, false,
      ({ hsStFlush with sendLen := 0,
                        resultSet := true } : HsSt Unit)).2.2.resultSet = true ∧
    (true, false,
      ({ hsStFlush with sendLen := 0,
                        resultSet := true } : HsSt Unit)).2.2.result = .ok :=
  C6_handshake_flush_ticket engineTicket hsStFresh () () 5 hsStFlush
    [RawSendRes.sent 5]
    (true, false, { hsStFlush with sendLen := 0, resultSet := true })
    rfl rfl rfl (by decide) rfl (by decide) rfl rfl
    (by
      intro r hr
      simp only [List.mem_singleton] at hr
      exact ⟨5, hr, by decide⟩)
    rfl

/-- `fillNextSendChunk` preserves the plaintext length and the result
invariant: every `Ok` it stores is `Ok(m_plainLength)`. -/
theorem fillNextSendChunk_preserves {σ : Type} (M : EngineModel σ) :
    ∀ (fuel : Nat) (s : SendSt σ) (b : Bool) (s' : SendSt σ),
      fillNextSendChunk M fuel s = some (b, s') →
      s'.plainLength = s.plainLength ∧ (sendResultInv s → sendResultInv s') := by
  intro fuel
  induction fuel with
  | zero =>
      intro s b s' h
      simp [fillNextSendChunk] at h
  | succ fuel ih =>
      intro s b s' h
      simp only [fillNextSendChunk] at h
      split at h
      · cases h
        exact ⟨rfl, fun hp => hp⟩
      · split at h
        · split at h
          · cases h
            refine ⟨rfl, fun _ => ?_⟩
            intro _ m hm
            cases hm
          · split at h
            · cases h
              refine ⟨rfl, fun _ => ?_⟩
              intro _ m hm
              cases hm
            · cases h
              exact ⟨rfl, fun hp => hp⟩
        · split at h
          · cases h
            refine ⟨rfl, fun _ => ?_⟩
            intro _ m hm
            cases hm
            rfl
          · split at h
            · have hr := ih _ _ _ h
              exact ⟨hr.1, fun hp => hr.2 hp⟩
            · split at h
              · have hr := ih _ _ _ h
                exact ⟨hr.1, fun hp => hr.2 hp⟩
              · cases h
                refine ⟨rfl, fun _ => ?_⟩
                intro _ m hm
                cases hm

/-- The constructor produces a state with the caller's length and a valid
result invariant. -/
theorem mkSend_inv {σ : Type} (M : EngineModel σ) (L buf0 : Nat) (e : σ)
    (fuel : Nat) (s0 : SendSt σ) (h : mkSend M L buf0 e fuel = some s0) :
    s0.plainLength = L ∧ sendResultInv s0 := by
  unfold mkSend at h
  rcases hE : ensureBufferSize buf0 kCipherBufSize with ⟨ok, sz⟩
  rw [hE] at h
  cases ok
  · simp only [Bool.not_false, if_pos] at h
    cases h
    refine ⟨rfl, ?_⟩
    intro _ m hm
    cases hm
  · simp only [Bool.not_true, Bool.false_eq_true, if_false] at h
    split at h
    · cases h
    · rename_i filled s1 hF
      have hfill := fillNextSendChunk_preserves M fuel _ filled s1 hF
      split at h
      · cases h
        constructor
        · exact hfill.1
        · intro _ m hm
          cases hm
          exact hfill.1.symm
      · cases h
        refine ⟨hfill.1, ?_⟩
        refine hfill.2 ?_
        intro hset m hm
        simp at hset

/-- The raw-send loop preserves the plaintext length and the result
invariant. -/
theorem sendRawLoop_preserves {σ : Type} :
    ∀ (raws : List RawSendRes) (s : SendSt σ)
      (out : Option Bool × List RawSendRes × SendSt σ),
      sendRawLoop raws s = some out →
      out.2.2.plainLength = s.plainLength ∧
        (sendResultInv s → sendResultInv out.2.2) := by
  intro raws
  induction raws with
  | nil =>
      intro s out h
      rw [sendRawLoop.eq_def] at h
      by_cases hz : s.ctxLen = 0
      · rw [if_pos hz] at h
        cases h
        exact ⟨rfl, fun hp => hp⟩
      · rw [if_neg hz] at h
        cases h
  | cons r rest ih =>
      intro s out h
      rw [sendRawLoop.eq_def] at h
      by_cases hz : s.ctxLen = 0
      · rw [if_pos hz] at h
        cases h
        exact ⟨rfl, fun hp => hp⟩
      · rw [if_neg hz] at h
        simp only [] at h
        cases r with
        | notReady =>
          cases h
          exact ⟨rfl, fun hp => hp⟩
        | fatal =>
          cases h
          refine ⟨rfl, fun _ => ?_⟩
          intro _ m hm
          cases hm
        | sent n =>
          simp only [] at h
          by_cases hn : n = 0
          · rw [if_pos hn] at h
            cases h
            exact ⟨rfl, fun hp => hp⟩
          · rw [if_neg hn] at h
            have hr := ih _ out h
            exact ⟨hr.1, fun hp => hr.2 hp⟩

/-- `SslSendAwaitable::handleComplete` preserves the plaintext length and the
result invariant. -/
theorem handleCompleteSend_preserves {σ : Type} (M : EngineModel σ) :
    ∀ (fuel : Nat) (raws : List RawSendRes) (s : SendSt σ) (b : Bool)
      (s' : SendSt σ),
      handleCompleteSend M fuel raws s = some (b, s') →
      s'.plainLength = s.plainLength ∧ (sendResultInv s → sendResultInv s') := by
  intro fuel
  induction fuel with
  | zero =>
      intro raws s b s' h
      simp [handleCompleteSend] at h
  | succ fuel ih =>
      intro raws s b s' h
      simp only [handleCompleteSend] at h
      rcases hL : sendRawLoop raws s with _ | ⟨ob, rest, s1⟩
      · rw [hL] at h
        cases h
      · have hraw := sendRawLoop_preserves raws s (ob, rest, s1) hL
        rw [hL] at h
        rcases ob with _ | ob2
        · simp only [] at h
          by_cases hset : s1.resultSet = true
          · rw [if_pos hset] at h
            cases h
            exact ⟨hraw.1, fun hp => hraw.2 hp⟩
          · rw [if_neg hset] at h
            rcases hF : fillNextSendChunk M fuel s1 with _ | ⟨filled, s2⟩
            · rw [hF] at h
              cases h
            · have hfill := fillNextSendChunk_preserves M fuel s1 filled s2 hF
              rw [hF] at h
              simp only [] at h
              cases filled
              · rw [if_neg Bool.false_ne_true] at h
                by_cases hset2 : s2.resultSet = true
                · rw [if_pos hset2] at h
                  cases h
                  exact ⟨hfill.1.trans hraw.1, fun hp => hfill.2 (hraw.2 hp)⟩
                · rw [if_neg hset2] at h
                  cases h
                  refine ⟨hfill.1.trans hraw.1, fun _ => ?_⟩
                  intro _ m hm
                  cases hm
                  rfl
              · rw [if_pos rfl] at h
                have hr := ih rest s2 b s' h
                exact ⟨hr.1.trans (hfill.1.trans hraw.1),
                       fun hp => hr.2 (hfill.2 (hraw.2 hp))⟩
        · simp only [] at h
          cases h
          exact ⟨hraw.1, fun hp => hraw.2 hp⟩

/-- Reachability preserves the plaintext length and the result invariant. -/
theorem sendReach_preserves {σ : Type} (M : EngineModel σ) :
    ∀ (s s' : SendSt σ), SendReach M s s' →
      s'.plainLength = s.plainLength ∧ (sendResultInv s → sendResultInv s') := by
  intro s s' hr
  induction hr with
  | refl => exact ⟨rfl, fun hp => hp⟩
  | handle s1 s2 fuel raws b h1 h2 ih =>
      have hh := handleCompleteSend_preserves M fuel raws s1 b s2 h2
      exact ⟨hh.1.trans ih.1, fun hp => hh.2 (ih.2 hp)⟩

/-- C1: for every completed `SslSendAwaitable` whose observed result is
`Ok(n)`, `n` equals the caller-supplied plaintext length `L` passed at
construction — over every engine behaviour, every raw-I/O script, and every
number of wake-ups. -/
theorem C1_send_ok_equals_length {σ : Type} (M : EngineModel σ) (L buf0 : Nat)
    (e : σ) (fuel : Nat) (s0 s : SendSt σ) (baseOk : Bool) (n : Nat)
    (hmk : mkSend M L buf0 e fuel = some s0)
    (hreach : SendReach M s0 s)
    (hres : awaitResumeSend s baseOk = .ok n) :
    n = L := by
  have h0 := mkSend_inv M L buf0 e fuel s0 hmk
  have hp := sendReach_preserves M s0 s hreach
  have hlen : s.plainLength = L := hp.1.trans h0.1
  have hinv : sendResultInv s := hp.2 h0.2
  unfold awaitResumeSend at hres
  by_cases hset : s.resultSet = true
  · rw [if_pos hset] at hres
    exact (hinv hset n hres).trans hlen
  · rw [if_neg hset] at hres
    by_cases hb : baseOk = true
    · rw [hb] at hres
      simp only [Bool.not_true, Bool.false_eq_true, if_false] at hres
      cases hres
      exact hlen
    · have hbf : baseOk = false := by
        cases baseOk
        · rfl
        · exact absurd rfl hb
      rw [hbf] at hres
      simp only [Bool.not_false, if_pos] at hres
      cases hres

/-- Witness for C1: a zero-length send over a trivial engine resolves in the
constructor, reachability is reflexive, and the observed `Ok(0)` equals `L = 0`. -/
theorem C1_send_ok_witness :
    mkSend engineZeroReturn 0 16384 () 1 = some (sendStDoneAt () 16384) ∧
    awaitResumeSend (sendStDoneAt () 16384) true = .ok 0 ∧ (0 : Nat) = 0 :=
  ⟨rfl, rfl,
   C1_send_ok_equals_length engineZeroReturn 0 16384 () 1 (sendStDoneAt () 16384)
     (sendStDoneAt () 16384) true 0 rfl (SendReach.refl _) rfl⟩

/-- `fillNextSendChunk` at a state with no staged chunk, an empty outbound
queue and no remaining plaintext resolves `Ok(m_plainLength)` on its first
iteration, calling neither `SslEngine::write` nor `extractEncryptedOutput`. -/
theorem fillNextSendChunk_done {σ : Type} (M : EngineModel σ) (fuel : Nat)
    (s : SendSt σ) (hctx : s.ctxLen = 0)
    (hpend : M.pendingOut s.engine = 0)
    (hoff : s.plainLength ≤ s.plainOffset) :
    fillNextSendChunk M (fuel + 1) s =
      some (false, { s with cipherLength := 0, ctxLen := 0,
                            result := .ok s.plainLength, resultSet := true }) := by
  simp only [fillNextSendChunk]
  rw [if_neg (by omega), if_neg (by simp [hpend]), if_pos hoff]

/-- C10: a send of zero-length plaintext on an engine with an empty outbound
queue completes synchronously: the constructor resolves `Ok(0)` without
invoking the engine's `write` (the conclusion holds for *every* model `M`
with any `write` behaviour, and the engine state is returned unchanged), and
`await_suspend` returns `false` for any base verdict, so the coroutine never
suspends. -/
theorem C10_zero_length_send_sync {σ : Type} (M : EngineModel σ) (e : σ)
    (buf0 fuel : Nat) (base : Bool)
    (hp : M.pendingOut e = 0) (hf : 0 < fuel) :
    mkSend M 0 buf0 e fuel =
      some (sendStDoneAt e (ensureBufferSize buf0 kCipherBufSize).2) ∧
    (sendStDoneAt e (ensureBufferSize buf0 kCipherBufSize).2).result = .ok 0 ∧
    (sendStDoneAt e (ensureBufferSize buf0 kCipherBufSize).2).resultSet = true ∧
    (sendStDoneAt e (ensureBufferSize buf0 kCipherBufSize).2).engine = e ∧
    awaitSuspendSend (sendStDoneAt e (ensureBufferSize buf0 kCipherBufSize).2)
      base = false := by
  obtain ⟨fuel', rfl⟩ : ∃ k, fuel = k + 1 := ⟨fuel - 1, by omega⟩
  refine ⟨?_, rfl, rfl, rfl, by simp [awaitSuspendSend, sendStDoneAt]⟩
  unfold mkSend
  rcases hE : ensureBufferSize buf0 kCipherBufSize with ⟨ok, sz⟩
  have hok : ok = true := by
    have h1 := (ensureBufferSize_reaches buf0 kCipherBufSize).1
    rw [hE] at h1
    exact h1
  subst hok
  simp only [Bool.not_true, Bool.false_eq_true, if_false]
  rw [fillNextSendChunk_done M fuel' _ rfl hp (Nat.le_refl 0)]
  simp [sendStDoneAt]

/-- Witness for C10: a concrete zero-length send over the `ZeroReturn` engine
(empty outbound queue) resolves `Ok(0)` in the constructor and never
suspends. -/
theorem C10_zero_length_send_witness :
    mkSend engineZeroReturn 0 16384 () 1 =
      some (sendStDoneAt () (ensureBufferSize 16384 kCipherBufSize).2) ∧
    (sendStDoneAt () (ensureBufferSize 16384 kCipherBufSize).2).result = .ok 0 ∧
    (sendStDoneAt () (ensureBufferSize 16384 kCipherBufSize).2).resultSet = true ∧
    (sendStDoneAt () (ensureBufferSize 16384 kCipherBufSize).2).engine = () ∧
    awaitSuspendSend (sendStDoneAt () (ensureBufferSize 16384 kCipherBufSize).2)
      true = false :=
  C10_zero_length_send_sync engineZeroReturn () 16384 1 true rfl (by decide)
